import Mathlib

/- Verification of the multilayer transfer-matrix model and the EMA mixer of
   the polarized-light-calculation repository.

   The embedding follows `MultiLayerModel.py` and `EMA_calculate.py`.  The
   source builds a *symbolic* 2x2 scattering matrix over sympy symbols
   `wl`, `ri0`, `d0`, `ri1`, `d1`, ...  A symbolic expression is modelled
   shallowly as a function of an environment `Env` assigning a complex value
   to every symbol; the matrices are `Matrix (Fin 2) (Fin 2) ℂ`.  Fallible
   Python operations (the out-of-range list access `self.layers[1]` raised by
   `get_S` on an empty stack) are modelled with `Except`.  Division is the
   total field division of `ℂ` (`x / 0 = 0`); where the Python numerics would
   silently produce `Inf`/`NaN`, the model therefore returns junk values, and
   that convention is stated explicitly at the theorems concerned. -/

/-- The sympy symbols declared by the source: `wl` (wavelength,
`MultiLayerModel.__init__`) and, per layer index `i`, the pair
`ri<i>`, `d<i>` declared by `Layer.__init__`. -/
inductive SymVar where
  | wl : SymVar
  | ri : ℕ → SymVar
  | d : ℕ → SymVar
deriving DecidableEq

/-- An assignment of complex values to the sympy symbols; applying a symbolic
expression to an `Env` is the shallow embedding of that expression. -/
abbrev Env := SymVar → ℂ

/-- 2x2 complex matrices, the type of interface/propagation/scattering
matrices (`np.array([[...],[...]])` of sympy scalars in the source). -/
abbrev Mat2 := Matrix (Fin 2) (Fin 2) ℂ

/-- `Layer.__init__(layer_index, thickness=0, refraction_indices=0)`: stores
the numeric `thickness` and `refraction_indices` and registers the two
symbols `d<layer_index>`, `ri<layer_index>` (represented here implicitly by
`layer_index` through `SymVar.d`/`SymVar.ri`). -/
structure Layer where
  layer_index : ℕ
  thickness : ℂ
  refraction_indices : ℂ

/-- The implicit air layer `Layer(0, 0, 1)` that `MultiLayerModel.__init__`
inserts at position 0 of the layer list. -/
def airLayer : Layer := ⟨0, 0, 1⟩

/-- Value of a layer's symbolic refractive index `ri<i>` (the attribute
`self.ri` of `Layer`) under an environment. -/
def riSym (l : Layer) (env : Env) : ℂ := env (SymVar.ri l.layer_index)

/-- Value of a layer's symbolic thickness `d<i>` (the attribute `self.d` of
`Layer`) under an environment. -/
def dSym (l : Layer) (env : Env) : ℂ := env (SymVar.d l.layer_index)

/-- `MultiLayerModel.get_I(lp, lc)`: transmission denominator
`t = 2 * lp.ri * (lp.ri + lc.ri)`, reflection
`r = (lp.ri - lc.ri) / (lp.ri + lc.ri)`, interface matrix
`1/t * [[1, r], [r, 1]]`. -/
noncomputable def get_I (lp lc : Layer) (env : Env) : Mat2 :=
  let t := 2 * riSym lp env * (riSym lp env + riSym lc env)
  let r := (riSym lp env - riSym lc env) / (riSym lp env + riSym lc env)
  (1 / t) • !![1, r; r, 1]

/-- `MultiLayerModel.get_L(l)`: phase `ib = 0 + 2*pi*l.d*l.ri/wl * i` and
propagation matrix `[[exp(ib), 0], [0, exp(-ib)]]`. -/
noncomputable def get_L (l : Layer) (env : Env) : Mat2 :=
  let ib := 0 + 2 * (Real.pi : ℂ) * dSym l env * riSym l env / env SymVar.wl * Complex.I
  !![Complex.exp ib, 0; 0, Complex.exp (-ib)]

/-- The matrix-assembly loop of `MultiLayerModel.get_S` over the air-inserted
layer list `all`: start from `get_I(layers[0], layers[1])` and, for
`i in range(1, len(layers)-1)`, right-multiply by `get_L(layers[i])` and then
by `get_I(layers[i], layers[i+1])` (two successive `np.dot`). -/
noncomputable def getSRun (all : List Layer) (env : Env) : Mat2 :=
  (List.range' 1 (all.length - 2)).foldl
    (fun M i =>
      M * get_L (all.getD i airLayer) env *
        get_I (all.getD i airLayer) (all.getD (i + 1) airLayer) env)
    (get_I (all.getD 0 airLayer) (all.getD 1 airLayer) env)

/-- `MultiLayerModel.get_S` on the user layers: the air layer is inserted at
position 0 (done in `__init__` in the source); the very first statement
`self.get_I(self.layers[0], self.layers[1])` raises `IndexError` when the
air-inserted list has fewer than two entries, i.e. when there are no user
layers; otherwise the scattering-matrix expression is assembled by the loop. -/
noncomputable def get_S (userLayers : List Layer) : Except String (Env → Mat2) :=
  if (airLayer :: userLayers).length < 2 then
    Except.error "IndexError: list index out of range"
  else Except.ok (fun env => getSRun (airLayer :: userLayers) env)

/-- The `all_symbol_variable` list built at the end of `get_S`:
`[self.wl]` followed, for each layer of the air-inserted list in order, by
`[l.ri, l.d]`; it is the positional parameter list handed to `sym.lambdify`
for each of `S11`, `S12`, `S21`, `S22`. -/
def allSymbolVariables (userLayers : List Layer) : List SymVar :=
  (airLayer :: userLayers).foldl
    (fun acc l => acc ++ [SymVar.ri l.layer_index, SymVar.d l.layer_index]) [SymVar.wl]

/-- `MultiLayerModel.__init__(incident_angle=0, layers=None, wavelength=None)`:
stores the (numeric) incident angle and wavelength, inserts the air layer and
immediately calls `get_S`; the observable result of a construction is the
scattering-matrix expression together with the positional argument order of
the four compiled functions.  `incident_angle` and `wavelength` are stored
numeric data that never enter the symbolic computation. -/
noncomputable def initModel (incident_angle : ℂ) (userLayers : List Layer)
    (wavelength : List ℂ) : Except String ((Env → Mat2) × List SymVar) :=
  (get_S userLayers).map (fun S => (S, allSymbolVariables userLayers))

/-- The caller-visible state of the layer list passed to
`MultiLayerModel.__init__` after construction.  `self.layers = layers or []`
aliases the caller's list exactly when it is non-empty (an empty list is
falsy in Python, so a fresh `[]` is used instead), and
`self.layers.insert(0, l_air)` then mutates the aliased list in place. -/
def callerLayersAfterInit (userLayers : List Layer) : List Layer :=
  if userLayers.isEmpty then userLayers else airLayer :: userLayers

/-- The interface/propagation chain described by the specification: for a
current layer `c` followed by the remaining layers, multiply
`PropagationOperator(c) * InterfaceOperator(c, next)` and recurse; the final
layer contributes no propagation factor. -/
noncomputable def interfaceChain (env : Env) : Layer → List Layer → Mat2
  | _, [] => 1
  | c, next :: rest => get_L c env * get_I c next env * interfaceChain env next rest

/-- Principal complex square root in the convention of `numpy.sqrt` on
complex input: for `z = a + b*i`, real part `sqrt((|z|+a)/2)` and imaginary
part `sign(b) * sqrt((|z|-a)/2)` (non-negative imaginary part when `b = 0`). -/
noncomputable def csqrt (z : ℂ) : ℂ :=
  ⟨Real.sqrt ((Complex.abs z + z.re) / 2),
   (if z.im < 0 then (-1 : ℝ) else 1) * Real.sqrt ((Complex.abs z - z.re) / 2)⟩

/-- `ema(Na, Nb, fa)` from `EMA_calculate.py`: `ea = Na**2`, `eb = Nb**2`,
`e = 1/4 * (-ea + 2*eb + 3*ea*fa - 3*eb*fa
           + sqrt(8*ea*eb + (-ea + 2*eb + 3*ea*fa - 3*eb*fa)**2))`,
result `N = sqrt(e)`. -/
noncomputable def ema (Na Nb fa : ℂ) : ℂ :=
  let ea := Na ^ 2
  let eb := Nb ^ 2
  let e := 1 / 4 * (-ea + 2 * eb + 3 * ea * fa - 3 * eb * fa +
    csqrt (8 * ea * eb + (-ea + 2 * eb + 3 * ea * fa - 3 * eb * fa) ^ 2))
  csqrt e

/-- Test environment assigning 1 to every symbol. -/
def envOne : Env := fun _ => 1

/-- Test environment assigning 1 to `ri0` and -1 to every other symbol, so
that adjacent layers 0 and 1 have opposite refractive indices. -/
def envPM : Env := fun s => if s = SymVar.ri 0 then 1 else -1

/-- Test environment assigning 0 to the wavelength symbol `wl` and 1 to every
other symbol. -/
def envZeroWl : Env := fun s => if s = SymVar.wl then 0 else 1

/-- Test layer with index 0. -/
def layerZero : Layer := ⟨0, 0, 0⟩

/-- Test layer with index 1. -/
def layerOne : Layer := ⟨1, 0, 0⟩

/-- Test layer with index 1 and stored numeric data 5, 2. -/
def layerA : Layer := ⟨1, 5, 2⟩

/-- Test layer with index 1 and stored numeric data 7, 3. -/
def layerB : Layer := ⟨1, 7, 3⟩

theorem getD_of_drop : ∀ (all : List Layer) (k : ℕ) (c : Layer) (rest : List Layer),
    all.drop k = c :: rest → all.getD k airLayer = c := by
  intro all
  induction all with
  | nil => intro k c rest h; simp at h
  | cons a as ih =>
    intro k c rest h
    cases k with
    | zero =>
      simp at h
      simp [h.1]
    | succ k =>
      simp only [List.drop_succ_cons] at h
      simpa using ih k c rest h

theorem drop_succ_of_drop (all : List Layer) (k : ℕ) (c : Layer) (rest : List Layer)
    (h : all.drop k = c :: rest) : all.drop (k + 1) = rest := by
  have h2 := congrArg List.tail h
  rwa [List.tail_drop, List.tail_cons] at h2

theorem getSRun_loop (env : Env) : ∀ (rest : List Layer) (all : List Layer) (k : ℕ)
    (c : Layer) (M : Mat2), all.drop k = c :: rest →
    (List.range' k rest.length).foldl
      (fun M i =>
        M * get_L (all.getD i airLayer) env *
          get_I (all.getD i airLayer) (all.getD (i + 1) airLayer) env) M
      = M * interfaceChain env c rest := by
  intro rest
  induction rest with
  | nil =>
    intro all k c M _
    simp [interfaceChain]
  | cons n rest' ih =>
    intro all k c M h
    have hd1 : all.drop (k + 1) = n :: rest' := drop_succ_of_drop all k c (n :: rest') h
    have hk : all.getD k airLayer = c := getD_of_drop all k c (n :: rest') h
    have hk1 : all.getD (k + 1) airLayer = n := getD_of_drop all (k + 1) n rest' hd1
    rw [List.length_cons, List.range'_succ]
    simp only [List.foldl_cons]
    rw [hk, hk1, ih all (k + 1) n (M * get_L c env * get_I c n env) hd1]
    simp [interfaceChain, mul_assoc]

theorem getS_cons (l1 : Layer) (rest : List Layer) :
    get_S (l1 :: rest) =
      Except.ok (fun env => get_I airLayer l1 env * interfaceChain env l1 rest) := by
  unfold get_S
  rw [if_neg (by simp)]
  congr 1
  funext env
  unfold getSRun
  have h2 : (airLayer :: l1 :: rest).length - 2 = rest.length := by simp
  rw [h2]
  have h := getSRun_loop env rest (airLayer :: l1 :: rest) 1 l1
    (get_I ((airLayer :: l1 :: rest).getD 0 airLayer)
      ((airLayer :: l1 :: rest).getD 1 airLayer) env) (by simp)
  simpa using h

theorem foldl_symbols : ∀ (ls : List Layer) (acc : List SymVar),
    ls.foldl (fun acc l => acc ++ [SymVar.ri l.layer_index, SymVar.d l.layer_index]) acc =
      acc ++ ls.flatMap (fun l => [SymVar.ri l.layer_index, SymVar.d l.layer_index]) := by
  intro ls
  induction ls with
  | nil => intro acc; simp
  | cons l ls ih => intro acc; simp [ih]

theorem flatMap_pair_length (ls : List Layer) :
    (ls.flatMap (fun l => [SymVar.ri l.layer_index, SymVar.d l.layer_index])).length =
      2 * ls.length := by
  induction ls with
  | nil => simp
  | cons l ls ih =>
    simp only [List.flatMap_cons, List.length_append, List.length_cons, List.length_nil, ih]
    omega

theorem flatMap_symbols_map : ∀ (ls : List Layer),
    ls.flatMap (fun l => [SymVar.ri l.layer_index, SymVar.d l.layer_index]) =
      (ls.map Layer.layer_index).flatMap (fun i => [SymVar.ri i, SymVar.d i]) := by
  intro ls
  induction ls with
  | nil => rfl
  | cons l ls ih => simp [ih]

theorem allSymbolVariables_congr (ls1 ls2 : List Layer)
    (h : ls1.map Layer.layer_index = ls2.map Layer.layer_index) :
    allSymbolVariables ls1 = allSymbolVariables ls2 := by
  unfold allSymbolVariables
  rw [foldl_symbols, foldl_symbols, flatMap_symbols_map, flatMap_symbols_map,
    List.map_cons, List.map_cons, h]

theorem get_I_congr (lp lq lc ld : Layer) (hp : lp.layer_index = lq.layer_index)
    (hc : lc.layer_index = ld.layer_index) : get_I lp lc = get_I lq ld := by
  funext env
  simp [get_I, riSym, hp, hc]

theorem get_L_congr (l l' : Layer) (h : l.layer_index = l'.layer_index) :
    get_L l = get_L l' := by
  funext env
  simp [get_L, riSym, dSym, h]

theorem interfaceChain_congr : ∀ (r1 r2 : List Layer) (c1 c2 : Layer),
    c1.layer_index = c2.layer_index →
    r1.map Layer.layer_index = r2.map Layer.layer_index →
    ∀ env, interfaceChain env c1 r1 = interfaceChain env c2 r2 := by
  intro r1
  induction r1 with
  | nil =>
    intro r2 c1 c2 _ hm env
    cases r2 with
    | nil => rfl
    | cons _ _ => simp at hm
  | cons n1 r1' ih =>
    intro r2 c1 c2 hc hm env
    cases r2 with
    | nil => simp at hm
    | cons n2 r2' =>
      simp only [List.map_cons, List.cons.injEq] at hm
      simp only [interfaceChain]
      rw [get_L_congr c1 c2 hc, get_I_congr c1 c2 n1 n2 hc hm.1,
        ih r2' n1 n2 hm.1 hm.2 env]

theorem csqrt_ofReal_nonneg (r : ℝ) (hr : 0 ≤ r) : csqrt ((r : ℂ)) = Real.sqrt r := by
  have hre : ((r : ℂ)).re = r := Complex.ofReal_re r
  have him : ((r : ℂ)).im = 0 := Complex.ofReal_im r
  have habs : Complex.abs ((r : ℂ)) = r := by
    rw [Complex.abs_ofReal, abs_of_nonneg hr]
  apply Complex.ext
  · show Real.sqrt ((Complex.abs ((r : ℂ)) + ((r : ℂ)).re) / 2) = ((Real.sqrt r : ℝ) : ℂ).re
    rw [habs, hre, Complex.ofReal_re, show (r + r) / 2 = r by ring]
  · show (if ((r : ℂ)).im < 0 then (-1 : ℝ) else 1) *
        Real.sqrt ((Complex.abs ((r : ℂ)) - ((r : ℂ)).re) / 2) = ((Real.sqrt r : ℝ) : ℂ).im
    rw [him, habs, hre, Complex.ofReal_im]
    simp

theorem csqrt_ofReal_sq (x : ℝ) (hx : 0 ≤ x) : csqrt (((x : ℂ)) ^ 2) = x := by
  rw [show ((x : ℂ)) ^ 2 = (((x ^ 2 : ℝ)) : ℂ) by push_cast; ring,
    csqrt_ofReal_nonneg (x ^ 2) (sq_nonneg x), Real.sqrt_sq hx]

theorem ema_def (Na Nb fa : ℂ) :
    ema Na Nb fa =
      csqrt (1 / 4 * (-(Na ^ 2) + 2 * Nb ^ 2 + 3 * Na ^ 2 * fa - 3 * Nb ^ 2 * fa +
        csqrt (8 * Na ^ 2 * Nb ^ 2 +
          (-(Na ^ 2) + 2 * Nb ^ 2 + 3 * Na ^ 2 * fa - 3 * Nb ^ 2 * fa) ^ 2))) := rfl

/-- Claim C1: for every ordered sequence of at least one user layer, the
assembled scattering matrix is the left-to-right product that starts with the
air/layer-1 interface matrix and, for each intermediate layer, right-multiplies
by that layer's propagation matrix followed by the interface matrix to the next
layer, with no propagation factor for the final (substrate) layer; in
particular for a 3-layer stack it equals
`I(0,1) * L(1) * I(1,2) * L(2) * I(2,3)`. -/
theorem spec_c1 :
    (∀ (l1 : Layer) (rest : List Layer),
      get_S (l1 :: rest) =
        Except.ok (fun env => get_I airLayer l1 env * interfaceChain env l1 rest)) ∧
    (∀ (l1 l2 l3 : Layer),
      get_S [l1, l2, l3] =
        Except.ok (fun env =>
          get_I airLayer l1 env * get_L l1 env * get_I l1 l2 env * get_L l2 env *
            get_I l2 l3 env)) := by
  constructor
  · exact getS_cons
  · intro l1 l2 l3
    rw [getS_cons]
    congr 1
    funext env
    simp [interfaceChain, mul_assoc]

/-- Claim C2: the interface matrix between adjacent layers with (symbolic)
refractive indices `N_prev`, `N_curr` equals `(1/t) * [[1, r], [r, 1]]` with
`t = 2 * N_prev * (N_prev + N_curr)` and
`r = (N_prev - N_curr) / (N_prev + N_curr)`. -/
theorem spec_c2 (env : Env) (lp lc : Layer)
    (h1 : riSym lp env + riSym lc env ≠ 0) (h2 : riSym lp env ≠ 0) :
    get_I lp lc env =
      (1 / (2 * riSym lp env * (riSym lp env + riSym lc env))) •
        !![1, (riSym lp env - riSym lc env) / (riSym lp env + riSym lc env);
           (riSym lp env - riSym lc env) / (riSym lp env + riSym lc env), 1] := rfl

/-- Witness for C2 at the concrete environment assigning 1 to every symbol. -/
theorem spec_c2_witness :
    riSym layerZero envOne + riSym layerOne envOne ≠ 0 ∧
    riSym layerZero envOne ≠ 0 ∧
    get_I layerZero layerOne envOne =
      (1 / (2 * riSym layerZero envOne * (riSym layerZero envOne + riSym layerOne envOne))) •
        !![1, (riSym layerZero envOne - riSym layerOne envOne) /
              (riSym layerZero envOne + riSym layerOne envOne);
           (riSym layerZero envOne - riSym layerOne envOne) /
              (riSym layerZero envOne + riSym layerOne envOne), 1] := by
  have h1 : riSym layerZero envOne + riSym layerOne envOne ≠ 0 := by
    norm_num [riSym, envOne, layerZero, layerOne]
  have h2 : riSym layerZero envOne ≠ 0 := by
    norm_num [riSym, envOne, layerZero]
  exact ⟨h1, h2, spec_c2 envOne layerZero layerOne h1 h2⟩

/-- Claim C3: the positional parameter list compiled into each of the four
numeric functions is the wavelength symbol first, then for every layer of the
air-inserted stack, in order, the pair (refractive-index symbol, thickness
symbol); its length is `1 + 2*(N+1)` for `N` user layers. -/
theorem spec_c3 (userLayers : List Layer) :
    allSymbolVariables userLayers =
      SymVar.wl :: (airLayer :: userLayers).flatMap
        (fun l => [SymVar.ri l.layer_index, SymVar.d l.layer_index]) ∧
    (allSymbolVariables userLayers).length = 1 + 2 * (userLayers.length + 1) := by
  have h : allSymbolVariables userLayers =
      SymVar.wl :: (airLayer :: userLayers).flatMap
        (fun l => [SymVar.ri l.layer_index, SymVar.d l.layer_index]) := by
    unfold allSymbolVariables
    rw [foldl_symbols]
    rfl
  refine ⟨h, ?_⟩
  rw [h, List.length_cons, flatMap_pair_length, List.length_cons]
  omega

/-- Claim C4: the EMA mixer returns `sqrt(e)` with
`e = 1/4 * (-ea + 2*eb + 3*ea*fa - 3*eb*fa
          + sqrt(8*ea*eb + (-ea + 2*eb + 3*ea*fa - 3*eb*fa)^2))`,
`ea = Na^2`, `eb = Nb^2`. -/
theorem spec_c4 (Na Nb fa : ℂ) :
    ema Na Nb fa =
      csqrt (1 / 4 * (-(Na ^ 2) + 2 * Nb ^ 2 + 3 * Na ^ 2 * fa - 3 * Nb ^ 2 * fa +
        csqrt (8 * Na ^ 2 * Nb ^ 2 +
          (-(Na ^ 2) + 2 * Nb ^ 2 + 3 * Na ^ 2 * fa - 3 * Nb ^ 2 * fa) ^ 2))) :=
  ema_def Na Nb fa

/-- Claim C5: constructing a multilayer model from zero user layers fails at
construction time with an error (the out-of-range access
`self.layers[1]` inside `get_S`, which `__init__` calls), rather than
returning an identity-like matrix. -/
theorem spec_c5 (incident_angle : ℂ) (wavelength : List ℂ) :
    initModel incident_angle [] wavelength =
      Except.error "IndexError: list index out of range" := rfl

/-- Counterexample to C6: with refractive index `N = 1` on both sides, the
interface matrix computed by the source is `[[1,0],[0,1]]/4` (since
`t = 2*N*(N+N) = 4*N^2`), not the claimed `[[1,0],[0,1]]/(2*N) = [[1,0],[0,1]]/2`. -/
theorem spec_c6_counterexample :
    get_I layerOne layerOne envOne ≠ (1 / (2 * 1 : ℂ)) • (1 : Mat2) := by
  intro h
  have h00 := congrFun (congrFun h 0) 0
  simp [get_I, riSym, envOne, layerOne, Matrix.smul_apply, Matrix.one_apply] at h00

/-- Claim C6 (amended): for identical adjacent layers with refractive index
`N ≠ 0`, the reflection coefficient is 0 and the interface matrix is the
identity scaled by `1/(4*N^2)` (the source's `t = 2*N*(N+N)`), not `1/(2*N)`. -/
theorem spec_c6 (env : Env) (l : Layer) (h : riSym l env ≠ 0) :
    (riSym l env - riSym l env) / (riSym l env + riSym l env) = 0 ∧
    get_I l l env = (1 / (4 * riSym l env ^ 2)) • (1 : Mat2) := by
  constructor
  · simp
  · have ht : 2 * riSym l env * (riSym l env + riSym l env) = 4 * riSym l env ^ 2 := by
      ring
    simp [get_I, ht, Matrix.one_fin_two]

/-- Witness for the amended C6 at `N = 1`. -/
theorem spec_c6_witness :
    riSym layerOne envOne ≠ 0 ∧
    ((riSym layerOne envOne - riSym layerOne envOne) /
        (riSym layerOne envOne + riSym layerOne envOne) = 0 ∧
      get_I layerOne layerOne envOne = (1 / (4 * riSym layerOne envOne ^ 2)) • (1 : Mat2)) := by
  have h : riSym layerOne envOne ≠ 0 := by norm_num [riSym, envOne, layerOne]
  exact ⟨h, spec_c6 envOne layerOne h⟩

/-- Claim C7, evaluated at the failing input: the source contains no check for
`N_prev + N_curr = 0` or `wavelength = 0`; no error value is produced.  Under
the total field semantics of the embedding (`x / 0 = 0`, standing in for the
silent `Inf`/`NaN` of the numpy evaluation) the interface matrix at
`N_prev = 1`, `N_curr = -1` is the zero matrix, an ordinary returned value,
and the propagation matrix at wavelength 0 is the identity matrix — the
computation surfaces no domain error in either case. -/
theorem spec_c7 :
    get_I layerZero layerOne envPM = 0 ∧ get_L layerOne envZeroWl = !![1, 0; 0, 1] := by
  constructor
  · have h : riSym layerZero envPM + riSym layerOne envPM = 0 := by
      norm_num [riSym, envPM, layerZero, layerOne]
    simp [get_I, h]
  · simp [get_L, envZeroWl, dSym, riSym, layerOne]

/-- Counterexample to C8: at `Na = 1`, `Nb = -1`, `fa = 0` the mixer returns
`sqrt(Nb^2) = 1`, the principal square root, not the pure medium `Nb = -1`. -/
theorem spec_c8_counterexample : ema 1 (-1) 0 = 1 ∧ ema 1 (-1) 0 ≠ -1 := by
  have h : ema 1 (-1) 0 = 1 := by
    rw [ema_def]
    norm_num
    rw [show (9 : ℂ) = (((3 : ℝ) : ℂ)) ^ 2 by norm_num, csqrt_ofReal_sq 3 (by norm_num)]
    rw [show (1 / 4 * (1 + ((3 : ℝ) : ℂ)) : ℂ) = (((1 : ℝ) : ℂ)) ^ 2 by push_cast; norm_num]
    rw [csqrt_ofReal_sq 1 (by norm_num)]
    norm_num
  refine ⟨h, ?_⟩
  rw [h]
  intro hh
  have h2 := congrArg Complex.re hh
  norm_num at h2

/-- Claim C8 (amended): the boundary identities `mix(Na,Nb,0) = Nb` and
`mix(Na,Nb,1) = Na` hold for non-negative real refractive indices, where the
principal square root returns each value unchanged; for general complex
indices the principal branch can return the opposite root. -/
theorem spec_c8 (Na Nb : ℝ) (ha : 0 ≤ Na) (hb : 0 ≤ Nb) :
    ema ((Na : ℂ)) ((Nb : ℂ)) 0 = ((Nb : ℂ)) ∧
    ema ((Na : ℂ)) ((Nb : ℂ)) 1 = ((Na : ℂ)) := by
  constructor
  · rw [ema_def]
    have hA : 8 * ((Na : ℂ)) ^ 2 * ((Nb : ℂ)) ^ 2 +
        (-(((Na : ℂ)) ^ 2) + 2 * ((Nb : ℂ)) ^ 2 + 3 * ((Na : ℂ)) ^ 2 * 0 -
          3 * ((Nb : ℂ)) ^ 2 * 0) ^ 2 =
        (((Na ^ 2 + 2 * Nb ^ 2 : ℝ)) : ℂ) ^ 2 := by
      push_cast
      ring
    rw [hA, csqrt_ofReal_sq (Na ^ 2 + 2 * Nb ^ 2) (by positivity)]
    have hB : (1 / 4 : ℂ) * (-(((Na : ℂ)) ^ 2) + 2 * ((Nb : ℂ)) ^ 2 +
        3 * ((Na : ℂ)) ^ 2 * 0 - 3 * ((Nb : ℂ)) ^ 2 * 0 +
        (((Na ^ 2 + 2 * Nb ^ 2 : ℝ)) : ℂ)) = ((Nb : ℂ)) ^ 2 := by
      push_cast
      ring
    rw [hB, csqrt_ofReal_sq Nb hb]
  · rw [ema_def]
    have hC : 8 * ((Na : ℂ)) ^ 2 * ((Nb : ℂ)) ^ 2 +
        (-(((Na : ℂ)) ^ 2) + 2 * ((Nb : ℂ)) ^ 2 + 3 * ((Na : ℂ)) ^ 2 * 1 -
          3 * ((Nb : ℂ)) ^ 2 * 1) ^ 2 =
        (((2 * Na ^ 2 + Nb ^ 2 : ℝ)) : ℂ) ^ 2 := by
      push_cast
      ring
    rw [hC, csqrt_ofReal_sq (2 * Na ^ 2 + Nb ^ 2) (by positivity)]
    have hD : (1 / 4 : ℂ) * (-(((Na : ℂ)) ^ 2) + 2 * ((Nb : ℂ)) ^ 2 +
        3 * ((Na : ℂ)) ^ 2 * 1 - 3 * ((Nb : ℂ)) ^ 2 * 1 +
        (((2 * Na ^ 2 + Nb ^ 2 : ℝ)) : ℂ)) = ((Na : ℂ)) ^ 2 := by
      push_cast
      ring
    rw [hD, csqrt_ofReal_sq Na ha]

/-- Witness for the amended C8 at `Na = 2`, `Nb = 3`. -/
theorem spec_c8_witness :
    (0 : ℝ) ≤ 2 ∧ (0 : ℝ) ≤ 3 ∧
    (ema (((2 : ℝ)) : ℂ) (((3 : ℝ)) : ℂ) 0 = (((3 : ℝ)) : ℂ) ∧
      ema (((2 : ℝ)) : ℂ) (((3 : ℝ)) : ℂ) 1 = (((2 : ℝ)) : ℂ)) :=
  ⟨by norm_num, by norm_num, spec_c8 2 3 (by norm_num) (by norm_num)⟩

/-- Claim C9: for a non-empty caller-supplied layer list (construction with
zero layers never completes, and an empty list is replaced by a fresh one by
`layers or []`), construction mutates the caller's list in place: afterwards
it is the air layer consed onto the original elements, so its length grows by
one, its first element is `Layer(0, 0, 1)`, and the original elements follow
unchanged. -/
theorem spec_c9 (userLayers : List Layer) (h : userLayers ≠ []) :
    callerLayersAfterInit userLayers = airLayer :: userLayers ∧
    (callerLayersAfterInit userLayers).length = userLayers.length + 1 ∧
    (callerLayersAfterInit userLayers).head? = some airLayer ∧
    (callerLayersAfterInit userLayers).tail = userLayers := by
  have he : callerLayersAfterInit userLayers = airLayer :: userLayers := by
    unfold callerLayersAfterInit
    rw [if_neg (by simpa using h)]
  refine ⟨he, ?_, ?_, ?_⟩ <;> rw [he] <;> simp

/-- Witness for C9 on a one-layer list. -/
theorem spec_c9_witness :
    [layerOne] ≠ ([] : List Layer) ∧
    (callerLayersAfterInit [layerOne] = airLayer :: [layerOne] ∧
      (callerLayersAfterInit [layerOne]).length = [layerOne].length + 1 ∧
      (callerLayersAfterInit [layerOne]).head? = some airLayer ∧
      (callerLayersAfterInit [layerOne]).tail = [layerOne]) := by
  have h : [layerOne] ≠ ([] : List Layer) := by simp
  exact ⟨h, spec_c9 [layerOne] h⟩

/-- Claim C10: two constructions whose layer lists carry the same sequence of
`layer_index` values produce identical scattering-matrix expressions and
identical compiled-argument orders, whatever the stored numeric
`thickness`/`refraction_indices` values, the incident angle, and the stored
wavelength are — those construction inputs never reach the symbolic result. -/
theorem spec_c10 (ia1 ia2 : ℂ) (ls1 ls2 : List Layer) (wv1 wv2 : List ℂ)
    (h : ls1.map Layer.layer_index = ls2.map Layer.layer_index) :
    initModel ia1 ls1 wv1 = initModel ia2 ls2 wv2 := by
  cases ls1 with
  | nil =>
    cases ls2 with
    | nil => rfl
    | cons _ _ => simp at h
  | cons l1 r1 =>
    cases ls2 with
    | nil => simp at h
    | cons l2 r2 =>
      simp only [List.map_cons, List.cons.injEq] at h
      unfold initModel
      rw [getS_cons, getS_cons]
      have hS : (fun env => get_I airLayer l1 env * interfaceChain env l1 r1) =
          (fun env => get_I airLayer l2 env * interfaceChain env l2 r2) := by
        funext env
        rw [get_I_congr airLayer airLayer l1 l2 rfl h.1,
          interfaceChain_congr r1 r2 l1 l2 h.1 h.2 env]
      have hsym : allSymbolVariables (l1 :: r1) = allSymbolVariables (l2 :: r2) :=
        allSymbolVariables_congr (l1 :: r1) (l2 :: r2) (by simp [h.1, h.2])
      rw [hS, hsym]

/-- Witness for C10: one-layer stacks with equal layer indices but different
stored thickness/index data, incident angles and wavelengths. -/
theorem spec_c10_witness :
    List.map Layer.layer_index [layerA] = List.map Layer.layer_index [layerB] ∧
    initModel 0 [layerA] [] = initModel 1 [layerB] [0] :=
  ⟨rfl, spec_c10 0 1 [layerA] [layerB] [] [0] rfl⟩
